import Mathlib

/-!
# Verification of the machine-core agent execution engine

Shallow embedding of the core of `machine_core` (files
`src/machine_core/core/agent_base.py`, `src/machine_core/core/mcp_setup.py`,
`src/machine_core/core/config.py`) and proofs about the behaviour its
specification claims.

Python strings are modelled by Lean `String`; Python byte strings by
`List Nat`; Python dicts that the code only iterates or looks up are
modelled by association lists.  Side effects that the code performs through
`logger` are modelled as extra `List String` / trace outputs so that the
claims about warnings and delays can be stated.  Network and filesystem
access is modelled by explicit world records of functions; an operation
that can raise is modelled with `Except`, the carried `String` being the
Python `str(e)` of the exception.
-/

namespace MachineCore

/-! ## Python string primitives

Faithful models of the exact Python `str` operations the source uses:
`startswith`, `endswith`, the substring test `in`, `' '.join`, and
`.split()` with no separator (split on whitespace runs, dropping empty
fields). -/

/-- Python `s.startswith(pre)`. -/
def pyStartsWith (s pre : String) : Bool := pre.data.isPrefixOf s.data

/-- Python `s.endswith(suf)`. -/
def pyEndsWith (s suf : String) : Bool := suf.data.isSuffixOf s.data

/-- Python `pat in s` (substring containment). -/
def pyContains (s pat : String) : Bool := s.data.tails.any (fun t => pat.data.isPrefixOf t)

/-- Python `' '.join(words)` on character lists: words separated by a single space. -/
def joinSpace : List (List Char) → List Char
  | [] => []
  | [w] => w
  | w :: ws => w ++ ' ' :: joinSpace ws

/-- Python `' '.join(words)`. -/
def spaceJoin (words : List String) : String := ⟨joinSpace (words.map String.data)⟩

/-- The separator set of Python `s.split()` with no argument: exactly the
characters for which Python `str.isspace()` is true (codepoints 09-0d,
1c-1f, 20, 85, a0, 1680, 2000-200a, 2028, 2029, 202f, 205f, 3000) — a
strictly larger set than ASCII space/tab/CR/LF. -/
def pyIsSpace (c : Char) : Bool :=
  let n := c.toNat
  (0x09 ≤ n && n ≤ 0x0d) || (0x1c ≤ n && n ≤ 0x1f) || n == 0x20 || n == 0x85 ||
    n == 0xa0 || n == 0x1680 || (0x2000 ≤ n && n ≤ 0x200a) || n == 0x2028 ||
    n == 0x2029 || n == 0x202f || n == 0x205f || n == 0x3000

/-- Python `s.split()` on character lists: split on runs of Python
whitespace, dropping empty fields.  `acc` is the reversed current word. -/
def splitWSAux : List Char → List Char → List (List Char)
  | [], acc => if acc = [] then [] else [acc.reverse]
  | c :: rest, acc =>
    if pyIsSpace c then
      if acc = [] then splitWSAux rest []
      else acc.reverse :: splitWSAux rest []
    else splitWSAux rest (c :: acc)

def splitWSChars (l : List Char) : List (List Char) := splitWSAux l []

/-- Fidelity check: the split separates on vertical tab (0x0b) and the
other non-ASCII Python whitespace, as `str.split()` does. -/
lemma splitWSChars_vertical_tab :
    splitWSChars ['u', Char.ofNat 0x0b, 'v'] = [['u'], ['v']] := rfl

/-- Python `s.split()` (no separator argument). -/
def pySplit (s : String) : List String := (splitWSChars s.data).map (fun l => ⟨l⟩)

/-! ## base64 (Python `base64.b64encode(...).decode("utf-8")`) -/

def base64Alphabet : List Char :=
  "ABCDEFGHIJKLMNOPQRSTUVWXYZabcdefghijklmnopqrstuvwxyz0123456789+/".data

def b64Char (n : Nat) : Char := base64Alphabet.getD n '='

/-- RFC 4648 base64 of a byte sequence, as a character list. -/
def b64encodeChars : List Nat → List Char
  | [] => []
  | [a] => [b64Char (a % 256 / 4), b64Char (a % 4 * 16), '=', '=']
  | [a, b] => [b64Char (a % 256 / 4), b64Char (a % 4 * 16 + b % 256 / 16),
      b64Char (b % 16 * 4), '=']
  | a :: b :: c :: rest =>
    b64Char (a % 256 / 4) :: b64Char (a % 4 * 16 + b % 256 / 16) ::
      b64Char (b % 16 * 4 + c % 256 / 64) :: b64Char (c % 64) :: b64encodeChars rest

/-- Python `base64.b64encode(bytes).decode("utf-8")`. -/
def b64encode (bytes : List Nat) : String := ⟨b64encodeChars bytes⟩

/-! ## Python `pathlib.Path(...).suffix` -/

/-- Split a character list at every occurrence of `c`, keeping empty fields. -/
def splitOnChar (c : Char) : List Char → List (List Char)
  | [] => [[]]
  | x :: xs =>
    match splitOnChar c xs with
    | [] => if x = c then [[], []] else [[x]]
    | h :: t => if x = c then [] :: h :: t else (x :: h) :: t

/-- The final path component (`Path(p).name`): pathlib drops trailing slashes. -/
def pathName (p : String) : List Char :=
  (((splitOnChar '/' p.data).filter (fun l => l ≠ [])).getLast?).getD []

/-- Index of the last `'.'` in a name, if any (`name.rfind('.')`). -/
def rfindDot (name : List Char) : Option Nat :=
  ((List.range name.length).filter (fun i => name.getD i ' ' = '.')).getLast?

/-- Python `pathlib.Path(p).suffix`: the final `'.'`-suffix of the name, empty when
the dot is leading or trailing. -/
def pyPathSuffix (p : String) : String :=
  let name := pathName p
  match rfindDot name with
  | some i => if 0 < i ∧ i < name.length - 1 then ⟨name.drop i⟩ else ""
  | none => ""

/-! ## Image preprocessing (`BaseAgent._process_image`, agent_base.py lines 299-358)

The network and the filesystem are modelled by a world record.  `fetch url`
models `httpx.AsyncClient().get(url)` followed by `raise_for_status()`:
`.ok (contentType, body)` is a successful response together with its
`content-type` header (already defaulted to `""` when absent, as
`response.headers.get("content-type", "")` does) and its body bytes; an
`.error e` is any raised exception, carrying `str(e)`.  `file p` models the
filesystem: the byte content of path `p` when it exists. -/

structure ImgWorld where
  fetch : String → Except String (String × List Nat)
  file : String → Option (List Nat)

/-- Format inference of the HTTP/HTTPS branch of `_process_image`
(agent_base.py lines 323-333): formats are tried in the order png, jpeg,
gif, webp; each matches when its token occurs in the content-type header or
the URL ends in its extension; otherwise png. -/
def inferImgFormat (contentType imagePath : String) : String :=
  if pyContains contentType "png" || pyEndsWith imagePath ".png" then "png"
  else if pyContains contentType "jpeg" || pyContains contentType "jpg"
      || pyEndsWith imagePath ".jpg" || pyEndsWith imagePath ".jpeg" then "jpeg"
  else if pyContains contentType "gif" || pyEndsWith imagePath ".gif" then "gif"
  else if pyContains contentType "webp" || pyEndsWith imagePath ".webp" then "webp"
  else "png"

/-- Embedding of `BaseAgent._process_image` (agent_base.py lines 299-358).  `.ok none` is
Python `return None` (only the falsy-input guard produces it); `.error e`
is a raised exception with text `e`; the string inputs are `str(image_path)`. -/
def process_image (w : ImgWorld) (imagePath : String) : Except String (Option String) :=
  if imagePath = "" then .ok none
  else if pyStartsWith imagePath "data:image/" then .ok (some imagePath)
  else if pyStartsWith imagePath "http://" || pyStartsWith imagePath "https://" then
    match w.fetch imagePath with
    | .error e => .error e
    | .ok (contentType, bytes) =>
      .ok (some ("data:image/" ++ inferImgFormat contentType imagePath
        ++ ";base64," ++ b64encode bytes))
  else
    match w.file imagePath with
    | none => .error ("Image file not found: " ++ imagePath)
    | some bytes =>
      let ext := (pyPathSuffix imagePath).drop 1
      let fmt := if ext = "" then "png" else ext
      .ok (some ("data:image/" ++ fmt ++ ";base64," ++ b64encode bytes))

/-- The image loop shared by `run_query` (agent_base.py lines 85-92) and
`run_query_stream` (lines 165-173): each path is processed, a truthy result
is appended, a raised exception short-circuits with the formatted error
message used by both callers. -/
def processImages (w : ImgWorld) : List String → Except String (List String)
  | [] => .ok []
  | p :: rest =>
    match process_image w p with
    | .error e => .error ("Error: Failed to process image " ++ p ++ ": " ++ e)
    | .ok none => processImages w rest
    | .ok (some d) =>
      match processImages w rest with
      | .error e' => .error e'
      | .ok ds => .ok (d :: ds)

/-! ## Synchronous execution (`BaseAgent.run_query`, agent_base.py lines 55-131) -/

/-- The `pydantic_ai` usage object; only `total_tokens` is ever read. -/
structure Usage where
  total_tokens : Nat
deriving DecidableEq

/-- The engine-owned mutable fields of the agent instance:
`self.usage` and `self.message_history` (agent_core.py lines 144-145).
Messages are abstract identifiers. -/
structure AgentState where
  usage : Usage
  message_history : List Nat
deriving DecidableEq

/-- Outcome of one `await self.agent.run(...)` invocation: a truthy result
(output, usage, all messages), a falsy ("empty") result, or a raised
exception. -/
inductive ModelOutcome where
  | ok (output : String) (usage : Usage) (messages : List Nat)
  | empty
  | raised
deriving DecidableEq

def ModelOutcome.isOk : ModelOutcome → Bool
  | .ok _ _ _ => true
  | _ => false

def ModelOutcome.isRaised : ModelOutcome → Bool
  | .raised => true
  | _ => false

/-- Observable actions of the retry loop: a model invocation, and the
`await asyncio.sleep(1)` on line 122. -/
inductive Action where
  | modelCall
  | sleepOneSecond
deriving DecidableEq

/-- Result of `run_query`: the returned `AgentRunResult` on success, or the
`{"output": ...}` error dict. -/
inductive RunQueryResult where
  | success (output : String) (usage : Usage) (messages : List Nat)
  | errorOutput (output : String)
deriving DecidableEq

def maxRetriesMsg : String :=
  "Error: Maximum retries reached. Some tools failed to respond properly."

/-- The `while retry_count < max_retries` loop of `run_query`
(agent_base.py lines 100-126), with the loop counter replaced by the
remaining fuel `remaining = max_retries - retry_count`; the model stub is
indexed by the current `retry_count`.  The guard on line 120,
`retry_count + 1 < max_retries`, is `0 < remaining` after the decrement.
Returns the result, the updated agent state, and the trace of actions. -/
def runQueryLoop (model : Nat → ModelOutcome) (st : AgentState) :
    (retryCount remaining : Nat) → RunQueryResult × AgentState × List Action
  | _, 0 => (.errorOutput maxRetriesMsg, st, [])
  | rc, r + 1 =>
    match model rc with
    | .ok o u m => (.success o u m, ⟨u, m⟩, [.modelCall])
    | .empty =>
      let rest := runQueryLoop model st (rc + 1) r
      (rest.1, rest.2.1, .modelCall :: rest.2.2)
    | .raised =>
      let rest := runQueryLoop model st (rc + 1) r
      if 0 < r then (rest.1, rest.2.1, .modelCall :: .sleepOneSecond :: rest.2.2)
      else (rest.1, rest.2.1, .modelCall :: rest.2.2)

/-- The constant `Config.Agent.MAX_ITERATIONS` (config.py line 329). -/
def MAX_ITERATIONS : Nat := 10

/-- Embedding of `BaseAgent.run_query` (agent_base.py lines 55-131).  `maxRetries` is the
`Config.Agent().MAX_ITERATIONS` read on line 97 (the constant 10 in the
source, kept as a parameter so the iteration limit can be quantified). -/
def run_query (st : AgentState) (query : String) (imagePaths : List String)
    (w : ImgWorld) (model : Nat → ModelOutcome) (maxRetries : Nat) :
    RunQueryResult × AgentState × List Action :=
  if query = "" then (.errorOutput "Error: No query provided.", st, [])
  else
    match processImages w imagePaths with
    | .error msg => (.errorOutput msg, st, [])
    | .ok _ => runQueryLoop model st 0 maxRetries

/-! ## Streaming execution (`BaseAgent.run_query_stream`, agent_base.py lines 133-293) -/

/-- A Python exception value; `str` below is Python `str(e)`
(`str(KeyError(k))` is the `repr` of the key, hence the quotes). -/
inductive PyExc where
  | keyError (key : String)
  | other (msg : String)
deriving DecidableEq

/-- The apostrophe character (codepoint 39), with which Python wraps the
key in `str(KeyError(key))`. -/
def quoteChar : Char := Char.ofNat 39

def PyExc.str : PyExc → String
  | .keyError k => ⟨quoteChar :: (k.data ++ [quoteChar])⟩
  | .other m => m

/-- One upstream event of `self.agent.run_stream_events(...)`, as
discriminated by the `isinstance` chain on lines 207-256.
`functionToolResult` carries the already-extracted
`getattr(event.result, "content", str(event.result))` together with the
optional `tool_name` attribute (`getattr(event, "tool_name", "unknown")`)
and a flag telling whether handling this event raises (the inner
`except ... as tool_error` on line 243).  `raisesOnProcessing` is any event
whose handling raises inside the per-event `try` (line 206), caught on line
258 with `continue`. -/
inductive UpEvent where
  | agentRunResult (usage : Usage) (messages : List Nat)
  | partDeltaText (contentDelta : String)
  | partDeltaThinking (contentDelta : String)
  | partDeltaOther
  | functionToolCall (toolName : String) (toolArgs : String)
  | functionToolResult (toolName : Option String) (content : String) (raisesInHandler : Bool)
  | finalResult
  | partStart
  | partEnd
  | unknown
  | raisesOnProcessing (e : PyExc)
deriving DecidableEq

/-- How the upstream event stream terminates after its yielded events:
normal exhaustion, or an exception raised by the iteration itself. -/
inductive StreamEnd where
  | done
  | raise (e : PyExc)
deriving DecidableEq

structure UpStream where
  events : List UpEvent
  ending : StreamEnd
deriving DecidableEq

/-- One outward event yielded by `run_query_stream` (the dicts with a
`"type"` key). -/
inductive OutEvent where
  | textDelta (content : String)
  | thinkingDelta (content : String)
  | toolCall (toolName : String) (toolArgs : String)
  | toolResult (toolName : String) (content : String)
  | finalEv (content : String) (thinking : Option String) (inputTokens outputTokens : Nat)
  | errorEv (content : String)
deriving DecidableEq

/-- The `"type"` field of the yielded dict. -/
def OutEvent.typeStr : OutEvent → String
  | .textDelta _ => "text_delta"
  | .thinkingDelta _ => "thinking_delta"
  | .toolCall _ _ => "tool_call"
  | .toolResult _ _ => "tool_result"
  | .finalEv _ _ _ _ => "final"
  | .errorEv _ => "error"

/-- Loop state of the streaming loop: the accumulators `full_text` and
`full_thinking` (lines 184-185) plus the agent instance state. -/
structure LoopState where
  full_text : String
  full_thinking : String
  agent : AgentState
deriving DecidableEq

/-- Translation of one upstream event (the body of the `async for`, lines
206-260): the updated loop state and the (zero or one) events yielded. -/
def processUpEvent (ls : LoopState) : UpEvent → LoopState × List OutEvent
  | .agentRunResult u msgs => ({ ls with agent := ⟨u, msgs⟩ }, [])
  | .partDeltaText s =>
    if s ≠ "" then ({ ls with full_text := ls.full_text ++ s }, [.textDelta s])
    else (ls, [])
  | .partDeltaThinking s =>
    if s ≠ "" then ({ ls with full_thinking := ls.full_thinking ++ s }, [.thinkingDelta s])
    else (ls, [])
  | .partDeltaOther => (ls, [])
  | .functionToolCall n a => (ls, [.toolCall n a])
  | .functionToolResult n? content raisesInHandler =>
    if raisesInHandler then (ls, [])
    else (ls, [.toolResult (n?.getD "unknown") content])
  | .finalResult => (ls, [])
  | .partStart => (ls, [])
  | .partEnd => (ls, [])
  | .unknown => (ls, [])
  | .raisesOnProcessing _ => (ls, [])

/-- The whole `async for` loop over the successfully yielded upstream
events. -/
def streamLoop : LoopState → List UpEvent → LoopState × List OutEvent
  | ls, [] => (ls, [])
  | ls, e :: rest =>
    let step := processUpEvent ls e
    let tail := streamLoop step.1 rest
    (tail.1, step.2 ++ tail.2)

/-- The expanded diagnostic of the outer `except KeyError` handler
(agent_base.py lines 277-289), with `eStr = str(e)`.  The embedding of
`run_query_stream` below shows this handler is unreachable from stream
consumption: the inner `except Exception` on line 273 already catches every
exception the `async for` raises, `KeyError` included. -/
def keyErrorDiagnostic (eStr : String) : String :=
  "KeyError during streaming: " ++ eStr ++ "\n\n"
    ++ "This often happens when:\n"
    ++ "1. MCP server tools have malformed schemas (e.g., Optional[] types creating empty Type arrays)\n"
    ++ "2. The LLM model template has bugs (e.g., gpt-oss template crashes on empty Type arrays)\n\n"
    ++ "Solutions:\n"
    ++ "- Fix the MCP server to use concrete types (str instead of Optional[str])\n"
    ++ "- Use a different LLM model\n"
    ++ "- Check the validation warnings above for specific tool schema issues"

/-- Embedding of `BaseAgent.run_query_stream` (agent_base.py lines 133-293): the yielded
event sequence and the final agent instance state.  The upstream stream for
this call is given as `stream`.  When the iteration raises, the inner
handler (lines 273-275) yields one error event carrying `str(e)` — for a
`KeyError` as well, since `KeyError` is an `Exception`; the outer `except
KeyError` (line 277) guards only the code before the inner `try` (query
check, image handling, message building), none of which raises `KeyError`
in this model, so it contributes no branch here. -/
def run_query_stream (st : AgentState) (query : String) (imagePaths : List String)
    (w : ImgWorld) (stream : UpStream) : List OutEvent × AgentState :=
  if query = "" then ([.errorEv "Error: No query provided."], st)
  else
    match processImages w imagePaths with
    | .error msg => ([.errorEv msg], st)
    | .ok _ =>
      let loop := streamLoop ⟨"", "", st⟩ stream.events
      match stream.ending with
      | .done =>
        (loop.2 ++ [.finalEv loop.1.full_text
            (if loop.1.full_thinking ≠ "" then some loop.1.full_thinking else none)
            loop.1.agent.usage.total_tokens loop.1.agent.usage.total_tokens],
          loop.1.agent)
      | .raise e => (loop.2 ++ [.errorEv e.str], loop.1.agent)

/-! ## Toolset schema validation (`validate_and_fix_toolsets`, mcp_setup.py lines 10-97) -/

/-- The `type` entry of a parameter definition `prop_def`: absent
(`"type" not in prop_def`), a string, or a list of strings.  Only this
entry of `prop_def` is ever consulted. -/
inductive TypeVal where
  | missing
  | str (s : String)
  | arr (l : List String)
deriving DecidableEq

/-- Condition `"type" not in prop_def or not prop_def["type"]` (line 58): absent, or
falsy (empty string / empty list). -/
def typeMissingOrFalsy : TypeVal → Bool
  | .missing => true
  | .str s => s = ""
  | .arr l => l = []

/-- Condition `isinstance(prop_def["type"], list) and len(prop_def["type"]) == 0`
(line 62).  Never reached when true, since an empty list is already falsy. -/
def typeIsEmptyArr : TypeVal → Bool
  | .arr l => l = []
  | _ => false

/-- The issue recorded for one parameter (lines 58-64), if any. -/
def propIssue (toolName propName : String) (t : TypeVal) : Option String :=
  if typeMissingOrFalsy t then some (toolName ++ "." ++ propName ++ ": missing/empty type")
  else if typeIsEmptyArr t then some (toolName ++ "." ++ propName ++ ": empty type array")
  else none

/-- The `inputSchema` of a declared tool: its `properties` mapping when the
key is present, each property reduced to its `type` entry. -/
structure ToolSchema where
  properties : Option (List (String × TypeVal))
deriving DecidableEq

/-- A declared tool.  `inputSchema = none` models
`not (hasattr(tool, "inputSchema") and tool.inputSchema)` (line 49): the
attribute is absent or falsy. -/
structure MCPTool where
  name : String
  inputSchema : Option ToolSchema
deriving DecidableEq

/-- The issues collected for one tool (lines 47-64), in property order. -/
def toolIssues (t : MCPTool) : List String :=
  match t.inputSchema with
  | none => []
  | some schema =>
    match schema.properties with
    | none => []
    | some props => props.filterMap (fun p => propIssue t.name p.1 p.2)

/-- The shapes of `await toolset.list_tools()` the code distinguishes
(lines 36-41): an object with a `.tools` attribute, a plain list, or
anything else (treated as no tools). -/
inductive ToolsResponse where
  | withTools (tools : List MCPTool)
  | asList (tools : List MCPTool)
  | other
deriving DecidableEq

def ToolsResponse.toolList : ToolsResponse → List MCPTool
  | .withTools ts => ts
  | .asList ts => ts
  | .other => []

instance {ε α : Type} [DecidableEq ε] [DecidableEq α] : DecidableEq (Except ε α) := fun a b =>
  match a, b with
  | .ok x, .ok y =>
    if h : x = y then .isTrue (by rw [h]) else .isFalse (by simp [h])
  | .error x, .error y =>
    if h : x = y then .isTrue (by rw [h]) else .isFalse (by simp [h])
  | .ok _, .error _ => .isFalse (by simp)
  | .error _, .ok _ => .isFalse (by simp)

/-- One input toolset: its class name (used in warnings), whether it has a
`list_tools` attribute (line 31), and what `await toolset.list_tools()`
does (`.error e` being a raised exception with text `e`, caught on line
89). -/
structure MCPToolsetData where
  className : String
  listToolsAvailable : Bool
  listToolsResult : Except String ToolsResponse
deriving DecidableEq

/-- All schema issues of a toolset, in tool order (empty when enumeration
raises — the issues are then never computed). -/
def toolsetIssues (t : MCPToolsetData) : List String :=
  match t.listToolsResult with
  | .ok resp => resp.toolList.flatMap toolIssues
  | .error _ => []

/-- The single warning recorded for an excluded toolset with schema issues
(lines 69-75). -/
def schemaIssueWarning (className : String) (issues : List String) : String :=
  "⚠️  EXCLUDING toolset " ++ className ++ " due to schema issues:\n  "
    ++ String.intercalate "\n  " issues
    ++ "\n  These issues cause crashes with LLM models (e.g., gpt-oss template bug)."
    ++ "\n  Fix: Update the MCP server to use concrete types (str) instead of Optional[str]"
    ++ "\n  This toolset will NOT be available until fixed."

/-- The warning recorded when validating a toolset raises (line 92). -/
def validationErrorWarning (className e : String) : String :=
  "Excluding " ++ className ++ " due to validation error: " ++ e

/-- Embedding of `validate_and_fix_toolsets` (mcp_setup.py lines 10-97): the validated
toolsets and the warnings, in input order. -/
def validate_and_fix_toolsets : List MCPToolsetData → List MCPToolsetData × List String
  | [] => ([], [])
  | t :: rest =>
    let tail := validate_and_fix_toolsets rest
    if t.listToolsAvailable then
      match t.listToolsResult with
      | .error e =>
        (tail.1, validationErrorWarning t.className e :: tail.2)
      | .ok resp =>
        let issues := resp.toolList.flatMap toolIssues
        if issues ≠ [] then
          (tail.1, schemaIssueWarning t.className issues :: tail.2)
        else
          (t :: tail.1, tail.2)
    else
      (t :: tail.1, tail.2)

/-! ## Server configuration loading (`load_mcp_servers_from_config`,
mcp_setup.py lines 100-173) -/

/-- Embedding of `config.MCPServerModel` (config.py lines 313-316). -/
structure MCPServerModel where
  url : String
  type : String
  env : Option (List (String × String))
deriving DecidableEq

/-- One entry of the `"servers"` mapping, reduced to the keys the loader
reads: `server_config.get(key, default)` for the keys type, command, args,
env and url.  `args` folds the absent and the empty list together, as
`get("args", [])`
followed by truthiness does. -/
structure ServerEntry where
  type? : Option String
  command? : Option String
  args : List String
  env? : Option (List (String × String))
  url? : Option String
deriving DecidableEq

/-- The configuration document as the loader can encounter it: a missing
file, a read that raises, a JSON parse failure (each carrying `str(e)`),
or the parsed `servers` items. -/
inductive ConfigDoc where
  | missing
  | unreadable (e : String)
  | parseError (e : String)
  | parsed (servers : List (String × ServerEntry))
deriving DecidableEq

/-- The loop body for one server entry (lines 140-163): the descriptor
produced, or the warning logged when the entry is skipped. -/
def loadServerEntry (nameEntry : String × ServerEntry) : Option MCPServerModel × Option String :=
  let name := nameEntry.1
  let sc := nameEntry.2
  let transport := sc.type?.getD "http"
  if transport = "stdio" then
    let command := sc.command?.getD ""
    if sc.args ≠ [] then
      (some ⟨spaceJoin (command :: sc.args), "stdio", sc.env?⟩, none)
    else if command ≠ "" then
      (some ⟨command, "stdio", sc.env?⟩, none)
    else
      (none, some ("Server " ++ name ++ " missing command, skipping"))
  else
    let url := sc.url?.getD ""
    if url ≠ "" then
      (some ⟨url, transport, none⟩, none)
    else
      (none, some ("Server " ++ name ++ " missing url, skipping"))

/-- The `for server_name, server_config in mcp_servers.items()` loop. -/
def loadServers : List (String × ServerEntry) → List MCPServerModel × List String
  | [] => ([], [])
  | e :: rest =>
    let step := loadServerEntry e
    let tail := loadServers rest
    (step.1.toList ++ tail.1, step.2.toList ++ tail.2)

/-- Embedding of `load_mcp_servers_from_config` (mcp_setup.py lines 100-173): the
descriptors returned and the warning/error messages logged.  Every failure
to obtain the parsed document returns `[]` instead of raising. -/
def load_mcp_servers_from_config (configPath : String) : ConfigDoc → List MCPServerModel × List String
  | .missing =>
    ([], ["MCP config file not found at " ++ configPath ++ ", using empty server list"])
  | .unreadable e => ([], ["Error loading MCP config: " ++ e])
  | .parseError e => ([], ["Failed to parse " ++ configPath ++ ": " ++ e])
  | .parsed servers => loadServers servers

/-! ## Toolset factory (`setup_mcp_toolsets`, mcp_setup.py lines 176-244) -/

/-- A constructed toolset handle: `MCPServerStdio`, `MCPServerSSE` or
`MCPServerStreamableHTTP`, reduced to their connection identity (the
policy fields timeout/max_retries/allow_sampling are uniform). -/
inductive MCPToolset where
  | stdio (command : String) (args : List String) (env : Option (List (String × String)))
  | sse (url : String)
  | streamableHTTP (url : String)
deriving DecidableEq

/-- Python `dict.update`: `upd` overrides `base`; surviving `base` keys
keep their relative order, followed by `upd`. -/
def dictUpdate (base upd : List (String × String)) : List (String × String) :=
  base.filter (fun p => upd.all (fun q => q.1 ≠ p.1)) ++ upd

/-- The environment passed to `MCPServerStdio` (mcp_setup.py lines 207-212):
`os.environ.copy()` updated with `tool.env` when both are truthy, `tool.env`
alone when the environment is empty, `None` when `tool.env` is falsy. -/
def envVarsFor (osEnviron : List (String × String)) :
    Option (List (String × String)) → Option (List (String × String))
  | none => none
  | some te =>
    if te = [] then none
    else if osEnviron ≠ [] then some (dictUpdate osEnviron te)
    else some te

/-- Embedding of `setup_mcp_toolsets` (mcp_setup.py lines 176-244).  For a stdio
descriptor, `parts = tool.url.split()`; `parts[0]` on an empty split raises
`IndexError`, which the per-tool `except` catches, omitting the tool.
Unknown transport kinds are logged and omitted. -/
def setup_mcp_toolsets (osEnviron : List (String × String)) :
    List MCPServerModel → List MCPToolset
  | [] => []
  | tool :: rest =>
    let tail := setup_mcp_toolsets osEnviron rest
    if tool.type = "stdio" then
      match pySplit tool.url with
      | [] => tail
      | command :: args => .stdio command args (envVarsFor osEnviron tool.env) :: tail
    else if tool.type = "sse" then .sse tool.url :: tail
    else if tool.type = "http" then .streamableHTTP tool.url :: tail
    else tail

/-! ## Concrete fixtures used by witnesses and counterexamples -/

/-- An agent state with zeroed usage and empty history, as after
`AgentCore.__init__` (agent_core.py lines 144-145). -/
def st0 : AgentState := ⟨⟨0⟩, []⟩

/-- A world with no reachable network and no files. -/
def w0 : ImgWorld := ⟨fun _ => .error "unreachable", fun _ => none⟩

/-! ## C1/C4/C6: the synchronous retry loop -/

lemma runQueryLoop_allFail_result (model : Nat → ModelOutcome) (st : AgentState)
    (hfail : ∀ i, (model i).isOk = false) :
    ∀ (r rc : Nat), (runQueryLoop model st rc r).1 = .errorOutput maxRetriesMsg ∧
      ((runQueryLoop model st rc r).2.2).count .modelCall = r
  | 0, _ => by simp [runQueryLoop]
  | r + 1, rc => by
    have ih := runQueryLoop_allFail_result model st hfail r (rc + 1)
    have h := hfail rc
    cases hm : model rc with
    | ok o u m => rw [hm] at h; simp [ModelOutcome.isOk] at h
    | empty =>
      simp only [runQueryLoop, hm]
      simp [List.count_cons, ih.1, ih.2]
    | raised =>
      simp only [runQueryLoop, hm]
      rcases Nat.eq_zero_or_pos r with hr | hr
      · subst hr
        simp [List.count_cons, ih.1, ih.2]
      · simp [hr, List.count_cons, ih.1, ih.2]

lemma runQueryLoop_firstOk (model : Nat → ModelOutcome) (st : AgentState) :
    ∀ (j r rc : Nat) (o : String) (u : Usage) (m : List Nat), j < r →
      (∀ i, i < j → (model (rc + i)).isOk = false) → model (rc + j) = .ok o u m →
      (runQueryLoop model st rc r).1 = .success o u m ∧
      (runQueryLoop model st rc r).2.1 = ⟨u, m⟩ ∧
      ((runQueryLoop model st rc r).2.2).count .modelCall = j + 1
  | 0, r, rc, o, u, m, hjr, _, hok => by
    obtain ⟨r', rfl⟩ : ∃ r', r = r' + 1 := ⟨r - 1, by omega⟩
    rw [Nat.add_zero] at hok
    simp [runQueryLoop, hok, List.count_cons]
  | j + 1, r, rc, o, u, m, hjr, hfail, hok => by
    obtain ⟨r', rfl⟩ : ∃ r', r = r' + 1 := ⟨r - 1, by omega⟩
    have ih := runQueryLoop_firstOk model st j r' (rc + 1) o u m (by omega)
      (fun i hi => by
        have := hfail (i + 1) (by omega)
        rwa [show rc + (i + 1) = rc + 1 + i by omega] at this)
      (by rwa [show rc + 1 + j = rc + (j + 1) by omega])
    have h0 := hfail 0 (by omega)
    rw [Nat.add_zero] at h0
    cases hm : model rc with
    | ok o' u' m' => rw [hm] at h0; simp [ModelOutcome.isOk] at h0
    | empty =>
      simp only [runQueryLoop, hm]
      simp [List.count_cons, ih.1, ih.2.1, ih.2.2]
    | raised =>
      simp only [runQueryLoop, hm]
      rcases Nat.eq_zero_or_pos r' with hr | hr
      · omega
      · simp [hr, List.count_cons, ih.1, ih.2.1, ih.2.2]

/-- C1, first part content at the `run_query` level is stated in the claim
theorem below; this helper dispatches the query/image preamble. -/
lemma run_query_eq_loop (st : AgentState) (q : String) (w : ImgWorld)
    (model : Nat → ModelOutcome) (N : Nat) (hq : q ≠ "") :
    run_query st q [] w model N = runQueryLoop model st 0 N := by
  simp [run_query, hq, processImages]

/-- C1: with every model invocation inside `run_query` returning an empty
result or raising, the loop makes exactly `N` model calls (the iteration
limit) and returns the `{"output": "Error: Maximum retries reached. ..."}`
sentinel; and as soon as an attempt `j` returns a non-empty result, the
loop returns that result immediately, after exactly `j + 1` calls. -/
theorem C1_run_query_retry (st : AgentState) (q : String) (w : ImgWorld)
    (model : Nat → ModelOutcome) (N : Nat) (hq : q ≠ "") (hN : 1 ≤ N) :
    ((∀ i, (model i).isOk = false) →
      (run_query st q [] w model N).1 = .errorOutput maxRetriesMsg ∧
      ((run_query st q [] w model N).2.2).count .modelCall = N) ∧
    (∀ j o u m, j < N → (∀ i, i < j → (model i).isOk = false) → model j = .ok o u m →
      (run_query st q [] w model N).1 = .success o u m ∧
      ((run_query st q [] w model N).2.2).count .modelCall = j + 1) := by
  rw [run_query_eq_loop st q w model N hq]
  constructor
  · intro hfail
    exact runQueryLoop_allFail_result model st hfail N 0
  · intro j o u m hjN hfail hok
    have h := runQueryLoop_firstOk model st j N 0 o u m hjN
      (fun i hi => by simpa using hfail i hi) (by simpa using hok)
    exact ⟨h.1, h.2.2⟩

/-- Witness for C1: iteration limit 3 with an always-empty model stub gives
the sentinel after exactly 3 attempts; a model succeeding on its second
attempt returns that result after exactly 2 attempts. -/
theorem C1_run_query_retry_witness :
    ("hi" ≠ "" ∧ 1 ≤ 3) ∧
    ((run_query st0 "hi" [] w0 (fun _ => .empty) 3).1 = .errorOutput maxRetriesMsg ∧
      ((run_query st0 "hi" [] w0 (fun _ => .empty) 3).2.2).count .modelCall = 3) ∧
    ((run_query st0 "hi" [] w0
        (fun i => if i = 1 then .ok "ans" ⟨7⟩ [4] else .empty) 3).1 = .success "ans" ⟨7⟩ [4] ∧
      ((run_query st0 "hi" [] w0
        (fun i => if i = 1 then .ok "ans" ⟨7⟩ [4] else .empty) 3).2.2).count .modelCall = 2) :=
  ⟨⟨by decide, by decide⟩,
    (C1_run_query_retry st0 "hi" w0 (fun _ => .empty) 3 (by decide) (by decide)).1
      (fun _ => rfl),
    (C1_run_query_retry st0 "hi" w0
        (fun i => if i = 1 then .ok "ans" ⟨7⟩ [4] else .empty) 3 (by decide) (by decide)).2
      1 "ans" ⟨7⟩ [4] (by decide) (by decide) (by decide)⟩

lemma runQueryLoop_allFail_trace (model : Nat → ModelOutcome) (st : AgentState)
    (hfail : ∀ i, (model i).isOk = false) :
    ∀ (r rc : Nat), (runQueryLoop model st rc r).2.2 =
      (List.range' rc r).flatMap (fun i =>
        Action.modelCall ::
          if (model i).isRaised ∧ i + 1 < rc + r then [Action.sleepOneSecond] else [])
  | 0, _ => by simp [runQueryLoop]
  | r + 1, rc => by
    have ih := runQueryLoop_allFail_trace model st hfail r (rc + 1)
    have h := hfail rc
    have harith : rc + 1 + r = rc + (r + 1) := by omega
    cases hm : model rc with
    | ok o u m => rw [hm] at h; simp [ModelOutcome.isOk] at h
    | empty =>
      simp only [runQueryLoop, hm, List.range'_succ, List.flatMap_cons]
      rw [ih, harith]
      simp [hm, ModelOutcome.isRaised]
    | raised =>
      simp only [runQueryLoop, hm, List.range'_succ, List.flatMap_cons]
      rcases Nat.eq_zero_or_pos r with hr | hr
      · subst hr
        simp [ih, hm, ModelOutcome.isRaised]
      · have : rc + 1 < rc + (r + 1) := by omega
        simp [hr, ih, harith, hm, ModelOutcome.isRaised, this]

/-- C6 counterexample: with iteration limit 2 and a model stub that always
returns an empty result, the first attempt yields an empty result while an
attempt remains, yet the trace of the run holds no one-second delay at all
— the two model calls are back to back, so the claimed wait after every
empty attempt does not happen. -/
theorem C6_counterexample :
    (run_query st0 "hi" [] w0 (fun _ => .empty) 2).2.2 =
      [Action.modelCall, Action.modelCall] ∧
    Action.sleepOneSecond ∉ (run_query st0 "hi" [] w0 (fun _ => .empty) 2).2.2 := by
  constructor
  · rfl
  · decide

/-- C6 amended: in the retry loop of `run_query`, the fixed one-second
delay happens after an attempt exactly when that attempt *raised* and
attempts remain under the iteration limit; an attempt that merely returns
an empty result is followed by the next attempt immediately, with no
delay. -/
theorem C6_sleep_only_after_raise (st : AgentState) (q : String) (w : ImgWorld)
    (model : Nat → ModelOutcome) (N : Nat) (hq : q ≠ "")
    (hfail : ∀ i, (model i).isOk = false) :
    (run_query st q [] w model N).2.2 =
      (List.range' 0 N).flatMap (fun i =>
        Action.modelCall ::
          if (model i).isRaised ∧ i + 1 < N then [Action.sleepOneSecond] else []) := by
  rw [run_query_eq_loop st q w model N hq]
  simpa using runQueryLoop_allFail_trace model st hfail N 0

/-- Witness for C6 amended: limit 3, attempt 0 empty, attempts 1 and 2
raising — the trace holds a delay after attempt 1 (raised, attempts
remain) but none after attempt 0 (empty) nor after attempt 2 (limit
reached). -/
theorem C6_sleep_only_after_raise_witness :
    ("hi" ≠ "" ∧ ∀ i, ((fun j => if j = 0 then ModelOutcome.empty else .raised) i).isOk = false) ∧
    (run_query st0 "hi" [] w0 (fun j => if j = 0 then ModelOutcome.empty else .raised) 3).2.2 =
      [Action.modelCall, Action.modelCall, Action.sleepOneSecond, Action.modelCall] :=
  ⟨⟨by decide, fun i => by by_cases h : i = 0 <;> simp [h, ModelOutcome.isOk]⟩, by
    rw [C6_sleep_only_after_raise st0 "hi" w0
      (fun j => if j = 0 then ModelOutcome.empty else .raised) 3 (by decide)
      (fun i => by by_cases h : i = 0 <;> simp [h, ModelOutcome.isOk])]
    rfl⟩

/-- C4 amended, helper: whenever the loop returns a truthy result, the
stored state is exactly the usage and message list of that result. -/
lemma runQueryLoop_success_state (model : Nat → ModelOutcome) (st : AgentState) :
    ∀ (r rc : Nat) (o : String) (u : Usage) (m : List Nat),
      (runQueryLoop model st rc r).1 = .success o u m →
      (runQueryLoop model st rc r).2.1 = ⟨u, m⟩
  | 0, rc, o, u, m => by simp [runQueryLoop]
  | r + 1, rc, o, u, m => by
    have ih := runQueryLoop_success_state model st r (rc + 1) o u m
    cases hm : model rc with
    | ok o' u' m' =>
      simp only [runQueryLoop, hm]
      intro h
      obtain ⟨h1, h2, h3⟩ := RunQueryResult.success.inj h
      simp [h2, h3]
    | empty =>
      simp only [runQueryLoop, hm]
      exact ih
    | raised =>
      simp only [runQueryLoop, hm]
      rcases Nat.eq_zero_or_pos r with hr | hr
      · subst hr; simpa using ih
      · simpa [hr] using ih

/-- C4 amended: the usage counter of the agent instance is overwritten by
plain assignment on each successful exchange — after a call of `run_query`
that returns a truthy result, `self.usage` and `self.message_history`
equal the usage and messages of that result alone, with no accumulation of the
previous state. -/
theorem C4_usage_last_write (st : AgentState) (q : String) (paths : List String)
    (w : ImgWorld) (model : Nat → ModelOutcome) (N : Nat)
    (o : String) (u : Usage) (m : List Nat)
    (h : (run_query st q paths w model N).1 = .success o u m) :
    (run_query st q paths w model N).2.1 = ⟨u, m⟩ := by
  unfold run_query at h ⊢
  by_cases hq : q = ""
  · simp [hq] at h
  · simp only [hq, if_false] at h ⊢
    cases hi : processImages w paths with
    | error e => rw [hi] at h; simp at h
    | ok imgs =>
      rw [hi] at h
      exact runQueryLoop_success_state model st N 0 o u m h

/-- Usage after the first of the two exchanges of the C4 counterexample. -/
def stAfter1 : AgentState :=
  (run_query st0 "q1" [] w0 (fun _ => .ok "a" ⟨5⟩ [0]) 10).2.1

/-- Usage after the second of the two exchanges of the C4 counterexample. -/
def stAfter2 : AgentState :=
  (run_query stAfter1 "q2" [] w0 (fun _ => .ok "b" ⟨3⟩ [1]) 10).2.1

/-- C4 counterexample: two consecutive successful exchanges on the same
instance, with individual usages 5 and 3 tokens.  The instance counter
ends at 3, not at the sum 8, and it *decreased* from 5 to 3 between the
exchanges — the counters are overwritten, not accumulated, and are not
monotone. -/
theorem C4_counterexample :
    stAfter1.usage.total_tokens = 5 ∧ stAfter2.usage.total_tokens = 3 ∧
    stAfter2.usage.total_tokens ≠ 5 + 3 ∧
    stAfter2.usage.total_tokens < stAfter1.usage.total_tokens := by decide

/-- Witness for C4 amended: a concrete successful exchange whose result
usage is 7; the stored state is exactly `⟨⟨7⟩, [4]⟩`. -/
theorem C4_usage_last_write_witness :
    (run_query st0 "hi" [] w0 (fun _ => .ok "ans" ⟨7⟩ [4]) 10).1 =
      .success "ans" ⟨7⟩ [4] ∧
    (run_query st0 "hi" [] w0 (fun _ => .ok "ans" ⟨7⟩ [4]) 10).2.1 = ⟨⟨7⟩, [4]⟩ :=
  ⟨by decide, C4_usage_last_write st0 "hi" [] w0 (fun _ => .ok "ans" ⟨7⟩ [4]) 10
    "ans" ⟨7⟩ [4] (by decide)⟩

/-! ## C3/C7: streaming error behaviour -/

lemma processUpEvent_no_error (ls : LoopState) (e : UpEvent) :
    ∀ ev ∈ (processUpEvent ls e).2, ev.typeStr ≠ "error" := by
  cases e <;> simp only [processUpEvent] <;> (try split) <;> simp [OutEvent.typeStr]

lemma streamLoop_no_error :
    ∀ (evs : List UpEvent) (ls : LoopState), ∀ ev ∈ (streamLoop ls evs).2, ev.typeStr ≠ "error"
  | [], _ => by simp [streamLoop]
  | e :: rest, ls => by
    simp only [streamLoop, List.mem_append]
    intro ev hev
    rcases hev with h | h
    · exact processUpEvent_no_error ls e ev h
    · exact streamLoop_no_error rest (processUpEvent ls e).1 ev h

/-- C3: when the upstream stream raises partway through consumption, the
outward event sequence is exactly the translation of the successfully
received events followed by a single terminal `error` event; nothing
precedes the raise is of type `error`, and nothing follows it — filtering
the whole output for `error` events leaves exactly that one final event. -/
theorem C3_stream_error_terminal (st : AgentState) (q : String) (paths : List String)
    (w : ImgWorld) (evs : List UpEvent) (e : PyExc) (hq : q ≠ "")
    (himg : ∃ imgs, processImages w paths = .ok imgs) :
    (run_query_stream st q paths w ⟨evs, .raise e⟩).1 =
      (streamLoop ⟨"", "", st⟩ evs).2 ++ [.errorEv e.str] ∧
    (∀ ev ∈ (streamLoop ⟨"", "", st⟩ evs).2, ev.typeStr ≠ "error") ∧
    ((run_query_stream st q paths w ⟨evs, .raise e⟩).1.filter
      (fun ev => ev.typeStr == "error")) = [.errorEv e.str] := by
  obtain ⟨imgs, himgs⟩ := himg
  have hrun : (run_query_stream st q paths w ⟨evs, .raise e⟩).1 =
      (streamLoop ⟨"", "", st⟩ evs).2 ++ [.errorEv e.str] := by
    simp [run_query_stream, hq, himgs]
  refine ⟨hrun, streamLoop_no_error evs _, ?_⟩
  rw [hrun, List.filter_append]
  have h1 : (streamLoop ⟨"", "", st⟩ evs).2.filter (fun ev => ev.typeStr == "error") = [] := by
    rw [List.filter_eq_nil_iff]
    intro ev hev
    simpa using streamLoop_no_error evs _ ev hev
  rw [h1]
  simp [OutEvent.typeStr]

/-- Witness for C3: a stream yielding a text delta and a tool call and then
raising produces exactly those two translated events followed by one
terminal error event. -/
theorem C3_stream_error_terminal_witness :
    ("hi" ≠ "" ∧ ∃ imgs, processImages w0 [] = .ok imgs) ∧
    (run_query_stream st0 "hi" [] w0
        ⟨[.partDeltaText "a", .functionToolCall "t" "x=1"], .raise (.other "boom")⟩).1 =
      (streamLoop ⟨"", "", st0⟩ [.partDeltaText "a", .functionToolCall "t" "x=1"]).2 ++
        [.errorEv (PyExc.str (.other "boom"))] ∧
    ((run_query_stream st0 "hi" [] w0
        ⟨[.partDeltaText "a", .functionToolCall "t" "x=1"], .raise (.other "boom")⟩).1.filter
      (fun ev => ev.typeStr == "error")) = [.errorEv (PyExc.str (.other "boom"))] :=
  ⟨⟨by decide, ⟨[], rfl⟩⟩,
    (C3_stream_error_terminal st0 "hi" [] w0
      [.partDeltaText "a", .functionToolCall "t" "x=1"] (.other "boom")
      (by decide) ⟨[], rfl⟩).1,
    (C3_stream_error_terminal st0 "hi" [] w0
      [.partDeltaText "a", .functionToolCall "t" "x=1"] (.other "boom")
      (by decide) ⟨[], rfl⟩).2.2⟩

/-- C7: a `KeyError` raised while decoding stream events is caught by the
*inner* generic `except Exception` handler (agent_base.py lines 273-275),
so the terminal error event carries only `str(e)` — the quoted key — 
and not the expanded diagnostic of the outer `except KeyError` handler
(lines 277-289), which that inner handler shadows for every exception the
`async for` raises. -/
theorem C7_keyerror_generic_message :
    (run_query_stream st0 "hi" [] w0 ⟨[], .raise (.keyError "tool_name")⟩).1 =
      [.errorEv (PyExc.str (.keyError "tool_name"))] ∧
    PyExc.str (.keyError "tool_name") ≠
      keyErrorDiagnostic (PyExc.str (.keyError "tool_name")) := by
  constructor
  · rfl
  · decide

/-! ## C8: no image reference is dropped, except a falsy one -/

lemma process_image_ok_none (w : ImgWorld) (p : String) (hne : p ≠ "") :
    process_image w p ≠ .ok none := by
  rw [process_image, if_neg hne]
  split
  · simp
  · split
    · cases hfetch : w.fetch p with
      | error e => simp
      | ok ctb => cases ctb; simp
    · cases hf : w.file p <;> simp

lemma processImages_error_inv (w : ImgWorld) : ∀ (paths : List String) (msg : String),
    processImages w paths = .error msg →
    ∃ q e, q ∈ paths ∧ process_image w q = .error e ∧
      msg = "Error: Failed to process image " ++ q ++ ": " ++ e
  | [], msg => by simp [processImages]
  | p :: rest, msg => by
    simp only [processImages]
    cases hp : process_image w p with
    | error e =>
      intro h
      exact ⟨p, e, by simp, hp, by simpa using h.symm⟩
    | ok d? =>
      cases d? with
      | none =>
        intro h
        obtain ⟨q, e, hq, he, hmsg⟩ := processImages_error_inv w rest msg h
        exact ⟨q, e, by simp [hq], he, hmsg⟩
      | some d =>
        cases hrest : processImages w rest with
        | error m' =>
          intro h
          have hm : m' = msg := Except.error.inj h
          obtain ⟨q, e, hq, he, hmsg⟩ := processImages_error_inv w rest m' hrest
          exact ⟨q, e, by simp [hq], he, hm.symm.trans hmsg⟩
        | ok imgs => simp

/-- C8 amended: every *non-empty* image reference passed to the image loop
is accounted for — either some reference fails and the call ends with the
error message naming that reference, or the loop succeeds and the
processed inline value of the reference is in the produced payload list.  (An
empty reference is the one exception, see `C8_counterexample`.) -/
theorem C8_image_accounted (w : ImgWorld) (paths : List String) (p : String)
    (hp : p ∈ paths) (hne : p ≠ "") :
    (∃ q e, q ∈ paths ∧ process_image w q = .error e ∧
      processImages w paths = .error ("Error: Failed to process image " ++ q ++ ": " ++ e)) ∨
    (∃ d imgs, process_image w p = .ok (some d) ∧
      processImages w paths = .ok imgs ∧ d ∈ imgs) := by
  induction paths with
  | nil => cases hp
  | cons a rest ih =>
    cases ha : process_image w a with
    | error e =>
      left
      exact ⟨a, e, by simp, ha, by simp [processImages, ha]⟩
    | ok d? =>
      rcases List.mem_cons.mp hp with rfl | hp'
      · cases d? with
        | none => exact absurd ha (process_image_ok_none w p hne)
        | some d =>
          cases hrest : processImages w rest with
          | error msg =>
            left
            obtain ⟨q, e, hq, he, hmsg⟩ := processImages_error_inv w rest msg hrest
            exact ⟨q, e, by simp [hq], he, by simp [processImages, ha, hrest, hmsg]⟩
          | ok imgs =>
            right
            exact ⟨d, d :: imgs, ha, by simp [processImages, ha, hrest], by simp⟩
      · rcases ih hp' with ⟨q, e, hq, he, hmsg⟩ | ⟨d, imgs, hd, himgs, hmem⟩
        · left
          refine ⟨q, e, by simp [hq], he, ?_⟩
          cases d? with
          | none => simpa [processImages, ha] using hmsg
          | some d => simp [processImages, ha, hmsg]
        · right
          cases d? with
          | none => exact ⟨d, imgs, hd, by simpa [processImages, ha] using himgs, hmem⟩
          | some d' =>
            exact ⟨d, d' :: imgs, hd, by simp [processImages, ha, himgs], by simp [hmem]⟩

/-- C8 counterexample: the empty reference `""` is a reference the claim
quantifies over, yet `_process_image` returns `None` for it and the
`if data_url:` guard silently drops it — the call neither fails nor
includes any value for it in the payload. -/
theorem C8_counterexample :
    processImages w0 [""] = .ok [] ∧ process_image w0 "" = .ok none :=
  ⟨rfl, rfl⟩

/-- A world holding one empty png file, for the C8 witness. -/
def w1 : ImgWorld :=
  ⟨fun _ => .error "unreachable", fun p => if p = "img.png" then some [] else none⟩

/-- Witness for C8 amended, at a world with one existing local file. -/
theorem C8_image_accounted_witness :
    ("img.png" ∈ ["img.png"] ∧ "img.png" ≠ "") ∧
    ((∃ q e, q ∈ ["img.png"] ∧ process_image w1 q = .error e ∧
      processImages w1 ["img.png"] =
        .error ("Error: Failed to process image " ++ q ++ ": " ++ e)) ∨
    (∃ d imgs, process_image w1 "img.png" = .ok (some d) ∧
      processImages w1 ["img.png"] = .ok imgs ∧ d ∈ imgs)) :=
  ⟨⟨by decide, by decide⟩,
    C8_image_accounted w1 ["img.png"] "img.png" (by decide) (by decide)⟩

/-! ## C2: toolset validation filters whole toolsets -/

/-- Whether `await toolset.list_tools()` completes without raising. -/
def listToolsOk (t : MCPToolsetData) : Bool :=
  match t.listToolsResult with
  | .ok _ => true
  | .error _ => false

/-- C2: on toolsets that expose `list_tools` and whose enumeration
completes, `validate_and_fix_toolsets` returns exactly the toolsets with no
parameter issue (a missing/empty type or an empty type list anywhere
excludes the whole toolset), and records exactly one warning per excluded
toolset — the warning built from the full issue list of that toolset, naming
each offending tool and property. -/
theorem C2_validate_toolsets (ts : List MCPToolsetData)
    (h : ∀ t ∈ ts, t.listToolsAvailable = true ∧ listToolsOk t = true) :
    (validate_and_fix_toolsets ts).1 =
      ts.filter (fun t => decide (toolsetIssues t = [])) ∧
    (validate_and_fix_toolsets ts).2 =
      (ts.filter (fun t => !decide (toolsetIssues t = []))).map
        (fun t => schemaIssueWarning t.className (toolsetIssues t)) := by
  induction ts with
  | nil => exact ⟨rfl, rfl⟩
  | cons t rest ih =>
    obtain ⟨hav, hok⟩ := h t (by simp)
    obtain ⟨h1, h2⟩ := ih (fun x hx => h x (by simp [hx]))
    cases hres : t.listToolsResult with
    | error e => rw [listToolsOk, hres] at hok; simp at hok
    | ok resp =>
      have hiss : toolsetIssues t = resp.toolList.flatMap toolIssues := by
        rw [toolsetIssues, hres]
      by_cases hempty : resp.toolList.flatMap toolIssues = []
      · constructor
        · simp only [validate_and_fix_toolsets, hav, if_true, hres, hempty]
          simp [List.filter_cons, hiss, hempty, h1]
        · simp only [validate_and_fix_toolsets, hav, if_true, hres, hempty]
          simp [List.filter_cons, hiss, hempty, h2]
      · constructor
        · simp only [validate_and_fix_toolsets, hav, if_true, hres]
          simp [List.filter_cons, hiss, hempty, h1]
        · simp only [validate_and_fix_toolsets, hav, if_true, hres]
          simp [List.filter_cons, hiss, hempty, h2]

/-- A well-formed declared tool. -/
def toolGood : MCPTool := ⟨"add", some ⟨some [("x", .str "number")]⟩⟩

/-- A tool whose parameter `url` has no declared type. -/
def toolBad : MCPTool := ⟨"fetch_page", some ⟨some [("url", .missing)]⟩⟩

/-- A toolset passing validation. -/
def tsGood : MCPToolsetData := ⟨"MCPServerStdio", true, .ok (.asList [toolGood])⟩

/-- A toolset with one malformed parameter. -/
def tsBad : MCPToolsetData := ⟨"MCPServerSSE", true, .ok (.withTools [toolBad])⟩

/-- Witness for C2: one clean toolset and one toolset holding a tool with a
type-less parameter — the clean one is kept, the other excluded wholly
with a single warning naming `fetch_page.url`. -/
theorem C2_validate_toolsets_witness :
    (∀ t ∈ [tsGood, tsBad], t.listToolsAvailable = true ∧ listToolsOk t = true) ∧
    ((validate_and_fix_toolsets [tsGood, tsBad]).1 =
      [tsGood, tsBad].filter (fun t => decide (toolsetIssues t = [])) ∧
    (validate_and_fix_toolsets [tsGood, tsBad]).2 =
      ([tsGood, tsBad].filter (fun t => !decide (toolsetIssues t = []))).map
        (fun t => schemaIssueWarning t.className (toolsetIssues t))) :=
  ⟨by decide, C2_validate_toolsets [tsGood, tsBad] (by decide)⟩

/-! ## C5: remote image format inference -/

lemma url_http_shape (url : String)
    (h : pyStartsWith url "http://" = true ∨ pyStartsWith url "https://" = true) :
    ∃ rest, url.data = 'h' :: rest := by
  rcases h with h | h
  · rw [pyStartsWith, List.isPrefixOf_iff_prefix] at h
    obtain ⟨t, ht⟩ := h
    exact ⟨"ttp://".data ++ t, by rw [← ht]; rfl⟩
  · rw [pyStartsWith, List.isPrefixOf_iff_prefix] at h
    obtain ⟨t, ht⟩ := h
    exact ⟨"ttps://".data ++ t, by rw [← ht]; rfl⟩

/-- A URL with an HTTP scheme is non-empty and is not an inline data URL,
so `_process_image` reaches its fetch branch. -/
lemma http_url_props (url : String)
    (h : pyStartsWith url "http://" = true ∨ pyStartsWith url "https://" = true) :
    url ≠ "" ∧ pyStartsWith url "data:image/" = false := by
  obtain ⟨rest, hd⟩ := url_http_shape url h
  constructor
  · intro he
    rw [he] at hd
    simp at hd
  · rw [pyStartsWith, hd]
    rw [show ("data:image/".data) = 'd' :: "ata:image/".data from rfl]
    simp [List.isPrefixOf_cons₂, show ('d' == 'h') = false from rfl]

/-- C5 amended: for a remote URL the format tag is decided by trying the
formats in the fixed order png, jpeg, gif, webp, a format matching when its
token occurs in the response content-type *or* the URL carries its
extension (the two sources are tested together per format, not
content-type first); png is the default.  In particular a response
content-type of `image/jpeg` yields a `jpeg` tag only when the png rule
did not already match. -/
theorem C5_format_priority (w : ImgWorld) (url ct : String) (bytes : List Nat)
    (hhttp : pyStartsWith url "http://" = true ∨ pyStartsWith url "https://" = true)
    (hfetch : w.fetch url = .ok (ct, bytes))
    (h1 : pyContains ct "png" = false) (h2 : pyEndsWith url ".png" = false)
    (h3 : pyContains ct "jpeg" = true) :
    inferImgFormat ct url = "jpeg" ∧
    process_image w url = .ok (some ("data:image/jpeg" ++ ";base64," ++ b64encode bytes)) := by
  have hif : inferImgFormat ct url = "jpeg" := by
    simp [inferImgFormat, h1, h2, h3]
  have hcond : (pyStartsWith url "http://" || pyStartsWith url "https://") = true := by
    rcases hhttp with h | h <;> simp [h]
  obtain ⟨hne, hdata⟩ := http_url_props url hhttp
  refine ⟨hif, ?_⟩
  rw [process_image, if_neg hne]
  simp only [hdata, Bool.false_eq_true, if_false, hcond, if_true, hfetch]
  rw [hif]
  rfl

/-- A world serving a URL ending in `.png` with content-type `image/jpeg`. -/
def w3 : ImgWorld :=
  ⟨fun u => if u = "https://example.com/pic.png" then .ok ("image/jpeg", [])
    else .error "unreachable", fun _ => none⟩

/-- C5 counterexample: a remote URL ending in `.png` whose response
content-type is `image/jpeg` is tagged `png`, not `jpeg` — the URL
extension matched the earlier png rule, so the content-type did not come
first. -/
theorem C5_counterexample :
    inferImgFormat "image/jpeg" "https://example.com/pic.png" = "png" ∧
    process_image w3 "https://example.com/pic.png" = .ok (some "data:image/png;base64,") ∧
    ("png" : String) ≠ "jpeg" :=
  ⟨rfl, rfl, by decide⟩

/-- A world serving one jpeg image without a telling URL extension. -/
def w2 : ImgWorld :=
  ⟨fun u => if u = "https://example.com/pic" then .ok ("image/jpeg", [255, 216])
    else .error "unreachable", fun _ => none⟩

/-- Witness for C5 amended: a remote URL with content-type `image/jpeg`
and no `.png` match is tagged `jpeg`. -/
theorem C5_format_priority_witness :
    ((pyStartsWith "https://example.com/pic" "http://" = true ∨
        pyStartsWith "https://example.com/pic" "https://" = true) ∧
      w2.fetch "https://example.com/pic" = .ok ("image/jpeg", [255, 216]) ∧
      pyContains "image/jpeg" "png" = false ∧
      pyEndsWith "https://example.com/pic" ".png" = false ∧
      pyContains "image/jpeg" "jpeg" = true) ∧
    (inferImgFormat "image/jpeg" "https://example.com/pic" = "jpeg" ∧
      process_image w2 "https://example.com/pic" =
        .ok (some ("data:image/jpeg" ++ ";base64," ++ b64encode [255, 216]))) :=
  ⟨⟨Or.inr (by decide), by decide, by decide, by decide, by decide⟩,
    C5_format_priority w2 "https://example.com/pic" "image/jpeg" [255, 216]
      (Or.inr (by decide)) (by decide) (by decide) (by decide) (by decide)⟩

/-! ## C9: configuration loading never raises; skip semantics -/

lemma loadServers_eq_filterMap : ∀ (servers : List (String × ServerEntry)),
    loadServers servers =
      (servers.filterMap (fun e => (loadServerEntry e).1),
        servers.filterMap (fun e => (loadServerEntry e).2))
  | [] => rfl
  | e :: rest => by
    have ih := loadServers_eq_filterMap rest
    simp only [loadServers, ih, List.filterMap_cons]
    cases h1 : (loadServerEntry e).1 <;> cases h2 : (loadServerEntry e).2 <;>
      simp [h1, h2, Option.toList]

/-- C9 amended: the loader is total (never raises): a missing, unreadable
or unparsable document yields the empty descriptor list plus one logged
message; a parsed document is folded entry by entry, each entry either
producing a descriptor or being skipped with one warning.  A stdio entry
with no command *and no args* is skipped with a warning, and an http/sse
entry with no URL is skipped with a warning — but a stdio entry with a
missing command and non-empty args is *not* skipped (see
`C9_counterexample`). -/
theorem C9_loader_behavior (cp eU eP : String) (servers : List (String × ServerEntry)) :
    load_mcp_servers_from_config cp .missing =
      ([], ["MCP config file not found at " ++ cp ++ ", using empty server list"]) ∧
    load_mcp_servers_from_config cp (.unreadable eU) =
      ([], ["Error loading MCP config: " ++ eU]) ∧
    load_mcp_servers_from_config cp (.parseError eP) =
      ([], ["Failed to parse " ++ cp ++ ": " ++ eP]) ∧
    load_mcp_servers_from_config cp (.parsed servers) =
      (servers.filterMap (fun e => (loadServerEntry e).1),
        servers.filterMap (fun e => (loadServerEntry e).2)) ∧
    (∀ name sc, sc.type?.getD "http" = "stdio" → sc.command?.getD "" = "" → sc.args = [] →
      loadServerEntry (name, sc) =
        (none, some ("Server " ++ name ++ " missing command, skipping"))) ∧
    (∀ name sc, sc.type?.getD "http" ≠ "stdio" → sc.url?.getD "" = "" →
      loadServerEntry (name, sc) =
        (none, some ("Server " ++ name ++ " missing url, skipping"))) := by
  refine ⟨rfl, rfl, rfl, loadServers_eq_filterMap servers, ?_, ?_⟩
  · intro name sc ht hc hargs
    simp [loadServerEntry, ht, hc, hargs]
  · intro name sc ht hu
    simp [loadServerEntry, ht, hu]

/-- A stdio entry with no command but one argument. -/
def entryNoCmd : ServerEntry := ⟨some "stdio", none, ["run"], none, none⟩

/-- C9 counterexample: a stdio entry with *no command* and a non-empty
argument list is not skipped and gets no warning — the loader joins the
missing command (defaulted to `""`) with the args, producing the
descriptor url `" run"` with a leading space. -/
theorem C9_counterexample :
    load_mcp_servers_from_config "mcp.json" (.parsed [("srv", entryNoCmd)]) =
      ([⟨" run", "stdio", none⟩], []) := rfl

/-- A stdio entry with neither command nor args (skipped). -/
def entrySkip : ServerEntry := ⟨some "stdio", none, [], none, none⟩

/-- An http entry with no URL (skipped). -/
def entryNoUrl : ServerEntry := ⟨some "http", none, [], none, none⟩

/-- Witness for C9 amended, at a concrete two-entry document where both
entries are skipped with their respective warnings. -/
theorem C9_loader_behavior_witness :
    load_mcp_servers_from_config "mcp.json" (.parsed [("a", entrySkip), ("b", entryNoUrl)]) =
      ([("a", entrySkip), ("b", entryNoUrl)].filterMap (fun e => (loadServerEntry e).1),
        [("a", entrySkip), ("b", entryNoUrl)].filterMap (fun e => (loadServerEntry e).2)) ∧
    loadServerEntry ("a", entrySkip) =
      (none, some ("Server " ++ "a" ++ " missing command, skipping")) ∧
    loadServerEntry ("b", entryNoUrl) =
      (none, some ("Server " ++ "b" ++ " missing url, skipping")) :=
  ⟨(C9_loader_behavior "mcp.json" "e" "e" [("a", entrySkip), ("b", entryNoUrl)]).2.2.2.1,
    (C9_loader_behavior "mcp.json" "e" "e" []).2.2.2.2.1 "a" entrySkip
      (by decide) (by decide) (by decide),
    (C9_loader_behavior "mcp.json" "e" "e" []).2.2.2.2.2 "b" entryNoUrl
      (by decide) (by decide)⟩

/-! ## C10: the space-join of the loader against the whitespace-split of the factory -/

lemma splitWSAux_word : ∀ (w r acc : List Char),
    (∀ c ∈ w, pyIsSpace c = false) →
    splitWSAux (w ++ r) acc = splitWSAux r (w.reverse ++ acc)
  | [], r, acc, _ => by simp [splitWSAux]
  | c :: w', r, acc, h => by
    have hc : pyIsSpace c = false := h c (by simp)
    have ih := splitWSAux_word w' r (c :: acc) (fun d hd => h d (by simp [hd]))
    simp only [List.cons_append, splitWSAux, hc, Bool.false_eq_true, if_false,
      List.reverse_cons, List.append_assoc, List.cons_append, List.nil_append]
    exact ih

lemma splitWS_joinSpace : ∀ (ws : List (List Char)),
    (∀ w ∈ ws, w ≠ [] ∧ ∀ c ∈ w, pyIsSpace c = false) →
    splitWSChars (joinSpace ws) = ws
  | [], _ => rfl
  | [w], h => by
    obtain ⟨hw, hnws⟩ := h w (by simp)
    have h1 : splitWSAux (w ++ []) [] = splitWSAux [] (w.reverse ++ []) :=
      splitWSAux_word w [] [] hnws
    rw [List.append_nil] at h1
    rw [show joinSpace [w] = w from rfl, splitWSChars, h1]
    simp [splitWSAux, hw]
  | w :: v :: ws, h => by
    obtain ⟨hw, hnws⟩ := h w (by simp)
    have ih := splitWS_joinSpace (v :: ws) (fun x hx => h x (by simp at hx ⊢; tauto))
    rw [show joinSpace (w :: v :: ws) = w ++ ' ' :: joinSpace (v :: ws) from rfl,
      splitWSChars, splitWSAux_word w _ [] hnws]
    simp only [splitWSAux, show pyIsSpace ' ' = true from rfl, if_true]
    rw [if_neg (by simp [hw])]
    rw [show splitWSAux (joinSpace (v :: ws)) [] = splitWSChars (joinSpace (v :: ws)) from rfl,
      ih]
    simp

lemma string_data_ne_nil (s : String) (h : s ≠ "") : s.data ≠ [] := by
  intro hd
  apply h
  cases s with
  | mk data => cases hd; rfl

/-- The round trip at the string level: Python space-join then `.split()`
restores a list of non-empty whitespace-free words. -/
lemma pySplit_spaceJoin (words : List String)
    (h : ∀ a ∈ words, a ≠ "" ∧ ∀ c ∈ a.data, pyIsSpace c = false) :
    pySplit (spaceJoin words) = words := by
  rw [pySplit, spaceJoin]
  rw [show (⟨joinSpace (words.map String.data)⟩ : String).data =
    joinSpace (words.map String.data) from rfl]
  rw [splitWS_joinSpace (words.map String.data) ?_]
  · rw [List.map_map]
    have hid : ((fun l : List Char => (⟨l⟩ : String)) ∘ String.data) = id :=
      funext (fun s => rfl)
    rw [hid, List.map_id]
  · intro w hw
    obtain ⟨s, hs, rfl⟩ := List.mem_map.mp hw
    exact ⟨string_data_ne_nil s (h s hs).1, (h s hs).2⟩

/-- C10 amended: for a stdio configuration entry whose command and argument
strings are non-empty and free of Python whitespace (the full `str.isspace`
separator set of `str.split()`, `pyIsSpace`), the space-join of command and
args done by the loader followed by the whitespace split of the factory
reconstructs exactly the original command and argument list in the
constructed stdio handle.  (Non-emptiness is required: see
`C10_counterexample`.) -/
theorem C10_roundtrip (cp name : String) (osEnviron : List (String × String))
    (env : Option (List (String × String))) (command : String) (args : List String)
    (hc : command ≠ "" ∧ ∀ c ∈ command.data, pyIsSpace c = false)
    (ha : ∀ a ∈ args, a ≠ "" ∧ ∀ c ∈ a.data, pyIsSpace c = false) :
    setup_mcp_toolsets osEnviron
      (load_mcp_servers_from_config cp
        (.parsed [(name, ⟨some "stdio", some command, args, env, none⟩)])).1 =
      [MCPToolset.stdio command args (envVarsFor osEnviron env)] := by
  have hsplit : pySplit (spaceJoin (command :: args)) = command :: args :=
    pySplit_spaceJoin (command :: args)
      (fun a hax => by
        rcases List.mem_cons.mp hax with rfl | hin
        · exact hc
        · exact ha a hin)
  by_cases hargs : args = []
  · subst hargs
    have hsplit1 : pySplit command = [command] := hsplit
    have hentry : loadServerEntry (name, ⟨some "stdio", some command, [], env, none⟩) =
        (some ⟨command, "stdio", env⟩, none) := by
      simp [loadServerEntry, hc.1]
    simp only [load_mcp_servers_from_config, loadServers, hentry, Option.toList,
      List.nil_append, List.append_nil]
    simp [setup_mcp_toolsets, hsplit1]
  · have hentry : loadServerEntry (name, ⟨some "stdio", some command, args, env, none⟩) =
        (some ⟨spaceJoin (command :: args), "stdio", env⟩, none) := by
      simp [loadServerEntry, hargs]
    simp only [load_mcp_servers_from_config, loadServers, hentry, Option.toList,
      List.nil_append, List.append_nil]
    simp [setup_mcp_toolsets, hsplit]

/-- C10 counterexample: the empty string contains no whitespace, yet an
argument list holding it does not round-trip — `["uv", ""]` joins to
`"uv "`, which splits back to `["uv"]`, so the constructed handle has no
arguments where the entry had one. -/
theorem C10_counterexample :
    (∀ c ∈ ("" : String).data, pyIsSpace c = false) ∧
    setup_mcp_toolsets []
      (load_mcp_servers_from_config "mcp.json"
        (.parsed [("s", ⟨some "stdio", some "uv", [""], none, none⟩)])).1 =
      [MCPToolset.stdio "uv" [] none] ∧
    ([] : List String) ≠ [""] :=
  ⟨by simp, rfl, by decide⟩

/-- Witness for C10 amended: the entry `command = "uv"`,
`args = ["run", "server.py"]` survives the join/split round trip intact. -/
theorem C10_roundtrip_witness :
    (("uv" : String) ≠ "" ∧ ∀ c ∈ ("uv" : String).data, pyIsSpace c = false) ∧
    (∀ a ∈ ["run", "server.py"], a ≠ "" ∧ ∀ c ∈ a.data, pyIsSpace c = false) ∧
    setup_mcp_toolsets []
      (load_mcp_servers_from_config "mcp.json"
        (.parsed [("s", ⟨some "stdio", some "uv", ["run", "server.py"], none, none⟩)])).1 =
      [MCPToolset.stdio "uv" ["run", "server.py"] (envVarsFor [] none)] :=
  ⟨⟨by decide, by decide⟩, by decide,
    C10_roundtrip "mcp.json" "s" [] none "uv" ["run", "server.py"]
      ⟨by decide, by decide⟩ (by decide)⟩

end MachineCore
